import Mathlib

/-!
Shallow embedding of `src/scraper.py` (release-note scraper) and proofs of
the specification claims about it.

External capabilities (the HTTP client, BeautifulSoup parsing, the
readability `Document.summary`, the `html2text` core conversion, and the
wall clock) are modelled as oracles; everything the repository's own code
does — the retry loop, content-length validation, markdown post-processing,
content validation, and the orchestrator loop with its statistics — is
translated directly from the source.
-/

namespace Scraper

/-! ## Python string primitives

Python `str.strip`, `str.split('\n')`, `'\n'.join`, `str.split('\n\n')`,
`'\n\n'.join`, substring membership (`in`) and `str.lower`, modelled on
`List Char`. -/

/-- Characters Python `str.strip()` removes (the ASCII whitespace set). -/
def isPySpace (c : Char) : Bool :=
  c = ' ' || c = '\t' || c = '\n' || c = '\r' || c = '\x0b' || c = '\x0c'

/-- Python `s.strip()` on a character list. -/
def pyStripL (l : List Char) : List Char :=
  ((l.dropWhile isPySpace).reverse.dropWhile isPySpace).reverse

/-- Python `s.strip()` on a `String`. -/
def pyStrip (s : String) : String :=
  ⟨pyStripL s.data⟩

/-- Python `s.split(c)` for a one-character separator: `"".split(c) = [""]`,
separators are not kept, empty pieces are kept. -/
def splitOnChar (c : Char) : List Char → List (List Char)
  | [] => [[]]
  | x :: xs =>
    if x = c then [] :: splitOnChar c xs
    else
      match splitOnChar c xs with
      | [] => [[x]]
      | h :: t => (x :: h) :: t

/-- Python `sep.join(pieces)`. -/
def joinSep (sep : List Char) : List (List Char) → List Char
  | [] => []
  | [l] => l
  | l :: ls => l ++ sep ++ joinSep sep ls

/-- Python `s.split("\n\n")`: left-to-right, non-overlapping. -/
def splitNN : List Char → List (List Char)
  | [] => [[]]
  | [x] => [[x]]
  | x :: y :: xs =>
    if x = '\n' ∧ y = '\n' then [] :: splitNN xs
    else
      match splitNN (y :: xs) with
      | [] => [[x]]
      | h :: t => (x :: h) :: t

/-- `leadsWith pat l` is true when `pat` begins `l`. -/
def leadsWith : List Char → List Char → Bool
  | [], _ => true
  | _ :: _, [] => false
  | p :: ps, x :: xs => p = x && leadsWith ps xs

/-- Python `pat in l` (substring membership). -/
def containsSub (pat : List Char) : List Char → Bool
  | [] => leadsWith pat []
  | x :: xs => leadsWith pat (x :: xs) || containsSub pat xs

/-- Python `s.lower()` (ASCII). -/
def pyLower (s : String) : List Char :=
  s.data.map Char.toLower

/-! ## Fetcher (`fetch_with_retry`)

One attempt of `client.get(url)` either yields an HTTP response (status and
body text) or raises one of the exception classes the code catches.  The
sequence of attempt outcomes for one URL is an oracle `Nat → FetchEvent`. -/

/-- Outcome of a single `client.get` call, as distinguished by the
`try/except` arms of `fetch_with_retry`. -/
inductive FetchEvent where
  | response (status : Nat) (body : String)
  | timeoutExc
  | networkExc (msg : String)
  | httpExc (msg : String)
  | otherExc (msg : String)
deriving DecidableEq

/-- Observable trace of one `fetch_with_retry` call: the returned value,
the number of `client.get` attempts made, and the list of backoff sleep
durations (in order). -/
structure FetchTrace where
  result : Option String
  attempts : Nat
  sleeps : List Nat
deriving DecidableEq

/-- The body of the `for attempt in range(max_retries)` loop, with `fuel`
remaining iterations (`fuel = max_retries - attempt` at every call from
`fetch_with_retry`).  Each level accounts for its own attempt and sleep. -/
def fetchAux (events : Nat → FetchEvent) (max_retries : Nat) :
    Nat → Nat → FetchTrace
  | 0, _ => { result := none, attempts := 0, sleeps := [] }
  | fuel + 1, attempt =>
    -- `retry`: the shared `if attempt < max_retries - 1: sleep(2**attempt); continue`
    -- pattern; when the guard fails the loop body ends and the loop advances.
    let retry : FetchTrace :=
      if attempt < max_retries - 1 then
        let t := fetchAux events max_retries fuel (attempt + 1)
        { result := t.result, attempts := t.attempts + 1,
          sleeps := 2 ^ attempt :: t.sleeps }
      else { result := none, attempts := 1, sleeps := [] }
    match events attempt with
    | .response status body =>
      if status = 200 then { result := some body, attempts := 1, sleeps := [] }
      else if status = 404 then { result := none, attempts := 1, sleeps := [] }
      else if status = 429 then retry
      else if 500 ≤ status then retry
      else { result := none, attempts := 1, sleeps := [] }
    | .timeoutExc => retry
    | .networkExc _ => retry
    | .httpExc _ => retry
    | .otherExc _ => { result := none, attempts := 1, sleeps := [] }

/-- `fetch_with_retry(client, url, max_retries)`; the per-attempt outcomes of
`client.get(url)` are the oracle `events`. -/
def fetch_with_retry (events : Nat → FetchEvent) (max_retries : Nat) :
    FetchTrace :=
  fetchAux events max_retries max_retries 0

/-- An attempt outcome on which `fetch_with_retry` retries (sleeps and
continues when attempts remain): HTTP 429, HTTP 5xx, timeout, network
error, or other HTTP protocol error. -/
def Retryable : FetchEvent → Prop
  | .response status _ => status = 429 ∨ 500 ≤ status
  | .timeoutExc => True
  | .networkExc _ => True
  | .httpExc _ => True
  | .otherExc _ => False

instance : DecidablePred Retryable := by
  intro e
  cases e <;> simp [Retryable] <;> infer_instance

/-! ## Content Extractor (`extract_main_content`)

`Document(html).summary(html_partial=True)` is an external readability
capability; it is the oracle `summaryOf : String → Option String`, where
`none` models a raised exception (caught by the `except` arm). -/

/-- `extract_main_content(html)`: passes the readability summary through,
rejecting it with `None` only when it is truthy (non-empty) and its
stripped length is below 100. -/
def extract_main_content (summaryOf : String → Option String)
    (html : String) : Option String :=
  match summaryOf html with
  | none => none
  | some content =>
    -- `if content and len(content.strip()) < 100: return None`
    if content ≠ "" ∧ (pyStripL content.data).length < 100 then none
    else some content

/-! ## Markup Converter (`html_to_markdown`)

The `html2text.HTML2Text().handle` call is the oracle
`convertOf : String → Except String String`; `.error msg` models a raised
exception with message `str(e)`.  The whitespace post-processing is the
repository's own code and is translated literally. -/

/-- `html_to_markdown(html)`: oracle conversion, then
`'\n'.join(line.strip() for line in markdown.split('\n') if line.strip())`
followed by
`'\n\n'.join(paragraph for paragraph in markdown.split('\n\n') if paragraph)`;
on an internal error, the inline error string. -/
def html_to_markdown (convertOf : String → Except String String)
    (html : String) : String :=
  match convertOf html with
  | .error e => "Error converting content: " ++ e
  | .ok markdown =>
    let step1 :=
      joinSep ['\n']
        (((splitOnChar '\n' markdown.data).filter
            (fun line => pyStripL line ≠ [])).map pyStripL)
    ⟨joinSep ['\n', '\n'] ((splitNN step1).filter (· ≠ []))⟩

/-- True when some two adjacent lines of the list are both empty. -/
def twoConsecutiveBlank : List (List Char) → Bool
  | a :: b :: t => (decide (a = []) && decide (b = [])) || twoConsecutiveBlank (b :: t)
  | _ => false

/-- A string has no two consecutive blank lines: splitting it on `'\n'`
never yields two adjacent empty lines. -/
def noConsecBlankLines (s : String) : Prop :=
  twoConsecutiveBlank (splitOnChar '\n' s.data) = false

instance (s : String) : Decidable (noConsecBlankLines s) :=
  inferInstanceAs (Decidable (twoConsecutiveBlank (splitOnChar '\n' s.data) = false))

/-! ## Title Extractor (`extract_title`)

BeautifulSoup parsing is external; the oracle `soupOf` reports what the
code observes of the parsed document. -/

/-- What `extract_title` observes of `BeautifulSoup(html, "html.parser")`:
`titleCond = some t` exactly when `soup.title and soup.title.string` is
truthy with string value `t`; `h1Text = some s` exactly when
`soup.find('h1')` is truthy with `h1.get_text(strip=True) = s`;
`parseError` models a raised exception. -/
structure SoupView where
  titleCond : Option String
  h1Text : Option String
  parseError : Bool

/-- `extract_title(html)`: declared title (stripped, inner whitespace runs
collapsed), else first `h1` text, else `"Untitled"`; exceptions also yield
`"Untitled"`. -/
def extract_title (soupOf : String → SoupView) (html : String) : String :=
  let v := soupOf html
  if v.parseError then "Untitled"
  else
    match v.titleCond with
    | some t =>
      -- `title = soup.title.string.strip()`; `title = ' '.join(title.split())`
      let t1 := pyStripL t.data
      let t2 : String := ⟨joinSep [' '] ((t1.splitOnP isPySpace).filter (· ≠ []))⟩
      if t2 ≠ "" then t2 else "Untitled"
    | none =>
      match v.h1Text with
      | some h => if h ≠ "" then h else "Untitled"
      | none => "Untitled"

/-! ## Content Validator (`validate_content`) -/

/-- The fixed error-indicator phrase list. -/
def error_indicators : List String :=
  ["404 not found", "page not found", "access denied", "forbidden",
   "error occurred"]

/-- `validate_content(content)`: false when empty or stripped length < 50,
or when the lowercased content contains an error-indicator phrase. -/
def validate_content (content : String) : Bool :=
  if content = "" || (pyStripL content.data).length < 50 then false
  else
    let content_lower := pyLower content
    !(error_indicators.any fun ind => containsSub ind.data content_lower)

/-! ## Orchestrator data model (`ScraperConfig`, `ScraperStats`, `ScrapeResult`) -/

/-- `ScraperConfig`: run parameters.  Headers and user agent are carried by
the HTTP oracle; `timeout` and `delay` are abstract durations. -/
structure ScraperConfig where
  base_url : String
  timeout : ℚ
  delay : ℚ
  max_retries : Nat

/-- `ScraperStats` counters (the `start_time` wall-clock field is external
and not part of the counters). -/
structure ScraperStats where
  total_pages_checked : Nat
  successful_scrapes : Nat
  failed_scrapes : Nat
  not_found : Nat
deriving DecidableEq

/-- The derived summary `ScraperStats.to_dict` computes (minus
`duration_seconds`, which reads the external clock). -/
structure StatsDict where
  total_pages_checked : Nat
  successful_scrapes : Nat
  failed_scrapes : Nat
  not_found : Nat
  success_rate : ℚ
deriving DecidableEq

/-- `ScraperStats.to_dict`: the counters plus
`success_rate = successful_scrapes / total_pages_checked if total_pages_checked > 0 else 0`. -/
def ScraperStats.to_dict (s : ScraperStats) : StatsDict :=
  { total_pages_checked := s.total_pages_checked
    successful_scrapes := s.successful_scrapes
    failed_scrapes := s.failed_scrapes
    not_found := s.not_found
    success_rate :=
      if s.total_pages_checked > 0 then
        (s.successful_scrapes : ℚ) / (s.total_pages_checked : ℚ)
      else 0 }

/-- `ScrapeResult` record (the `timestamp` field reads the external clock
and is omitted). -/
structure ScrapeResult where
  page_id : Int
  url : String
  success : Bool
  title : Option String
  content : Option String
  error : Option String
deriving DecidableEq

/-- Python `template.format(page_id)` for a template with one `\x7b\x7d`
slot: substitutes at the first occurrence. -/
def pyFormat (template : String) (arg : String) : String :=
  match template.splitOn "\x7b\x7d" with
  | [] => template
  | [s] => s
  | s :: rest => s ++ arg ++ String.intercalate "\x7b\x7d" rest

/-- All external capabilities of one run: per-page per-attempt HTTP
outcomes, BeautifulSoup views, readability summaries, html2text
conversions, and the formatted wall-clock strings. -/
structure ExternalWorld where
  http : Int → Nat → FetchEvent
  soupOf : String → SoupView
  summaryOf : String → Option String
  convertOf : String → Except String String
  scrapeTimeOf : Int → String
  genTime : String

/-- Mutable state of the orchestrator loop.  `delaySleeps` counts the
`time.sleep(config.delay)` calls performed. -/
structure RunState where
  stats : ScraperStats
  results : List ScrapeResult
  sections : List (Int × String)
  delaySleeps : Nat

/-- One iteration of the `for page_id in range(start_id, end_id + 1)` loop
of `scrape_release_notes`. -/
def processPage (W : ExternalWorld) (config : ScraperConfig)
    (st : RunState) (page_id : Int) : RunState :=
  let stats0 := { st.stats with
    total_pages_checked := st.stats.total_pages_checked + 1 }
  let url := pyFormat config.base_url (toString page_id)
  let html? := (fetch_with_retry (W.http page_id) config.max_retries).result
  -- `if not html:` — both `None` and an empty body take the not-found branch
  match html? with
  | none =>
    { st with stats := { stats0 with not_found := stats0.not_found + 1 }
              results := st.results ++
                [{ page_id := page_id, url := url, success := false,
                   title := none, content := none,
                   error := some "Page not found or failed to fetch" }] }
  | some html =>
    if html = "" then
      { st with stats := { stats0 with not_found := stats0.not_found + 1 }
                results := st.results ++
                  [{ page_id := page_id, url := url, success := false,
                     title := none, content := none,
                     error := some "Page not found or failed to fetch" }] }
    else
      let title := extract_title W.soupOf html
      -- `if not main_html:` — `None` and the empty string both fail
      match extract_main_content W.summaryOf html with
      | none =>
        { st with stats := { stats0 with
                    failed_scrapes := stats0.failed_scrapes + 1 }
                  results := st.results ++
                    [{ page_id := page_id, url := url, success := false,
                       title := some title, content := none,
                       error := some "Failed to extract meaningful content" }] }
      | some main_html =>
        if main_html = "" then
          { st with stats := { stats0 with
                      failed_scrapes := stats0.failed_scrapes + 1 }
                    results := st.results ++
                      [{ page_id := page_id, url := url, success := false,
                         title := some title, content := none,
                         error := some "Failed to extract meaningful content" }] }
        else
          let markdown := html_to_markdown W.convertOf main_html
          if validate_content markdown = false then
            { st with stats := { stats0 with
                        failed_scrapes := stats0.failed_scrapes + 1 }
                      results := st.results ++
                        [{ page_id := page_id, url := url, success := false,
                           title := some title, content := none,
                           error := some "Extracted content failed validation" }] }
          else
            let sectionText :=
              "# " ++ title ++ "\n\n*Source: [" ++ url ++ "](" ++ url ++
              ")*\n\n*Scraped: " ++ W.scrapeTimeOf page_id ++
              "*\n\n---\n\n" ++ markdown ++ "\n\n---\n\n"
            { stats := { stats0 with
                successful_scrapes := stats0.successful_scrapes + 1 }
              results := st.results ++
                [{ page_id := page_id, url := url, success := true,
                   title := some title, content := some markdown,
                   error := none }]
              sections := st.sections ++ [(page_id, sectionText)]
              -- `time.sleep(config.delay)` — reached only on this branch
              delaySleeps := st.delaySleeps + 1 }

/-- Python `range(a, b + 1)` over `Int`. -/
def intRange (a b : Int) : List Int :=
  (List.range (b + 1 - a).toNat).map (fun i : Nat => a + (i : Int))

/-- Fresh loop state (fresh `ScraperStats()`, empty `results`/`sections`). -/
def initState : RunState :=
  { stats := ⟨0, 0, 0, 0⟩, results := [], sections := [], delaySleeps := 0 }

/-- Everything `scrape_release_notes` produces: the returned result list,
the final statistics, the sorted section list, the archive document text,
and the number of politeness-delay sleeps performed. -/
structure RunOutput where
  results : List ScrapeResult
  stats : ScraperStats
  sectionsSorted : List (Int × String)
  archive : String
  delaySleeps : Nat

/-- `scrape_release_notes(start_id, end_id, ..., config)`: the sequential
loop, then `sections.sort(key=lambda x: x[0])` (a stable sort, modelled by
`List.mergeSort` on the first component) and the archive assembly. -/
def scrape_release_notes (W : ExternalWorld) (config : ScraperConfig)
    (start_id end_id : Int) : RunOutput :=
  let final := (intRange start_id end_id).foldl (processPage W config) initState
  let sorted := final.sections.mergeSort (fun a b => a.1 ≤ b.1)
  { results := final.results
    stats := final.stats
    sectionsSorted := sorted
    archive :=
      "# Release Notes Archive\n\n*Generated: " ++ W.genTime ++
      "*\n\n*Pages scraped: " ++ toString start_id ++ " to " ++
      toString end_id ++ "*\n\n---\n\n" ++
      String.intercalate "\n" (sorted.map (·.2))
    delaySleeps := final.delaySleeps }

/-! ## Concrete worlds used by counterexamples and witnesses -/

/-- Attempt outcomes: a 500 on the first attempt, then a 200. -/
def ev500then200 : Nat → FetchEvent :=
  fun n => if n = 0 then .response 500 "oops" else .response 200 "body"

/-- A world in which every request returns HTTP 404. -/
def W404 : ExternalWorld :=
  { http := fun _ _ => .response 404 ""
    soupOf := fun _ => ⟨none, none, false⟩
    summaryOf := fun _ => none
    convertOf := fun _ => .error "e"
    scrapeTimeOf := fun _ => "2024-01-01 00:00:00"
    genTime := "2024-01-01 00:00:00" }

/-- A world in which every request times out. -/
def Wtimeout : ExternalWorld :=
  { http := fun _ _ => .timeoutExc
    soupOf := fun _ => ⟨none, none, false⟩
    summaryOf := fun _ => none
    convertOf := fun _ => .error "e"
    scrapeTimeOf := fun _ => "2024-01-01 00:00:00"
    genTime := "2024-01-01 00:00:00" }

/-- A default-like configuration. -/
def cfg : ScraperConfig :=
  { base_url := "https://helpcenter.example.com/\x7b\x7d"
    timeout := 15, delay := 1 / 2, max_retries := 3 }

/-- A 120-character extraction used as a concrete witness input. -/
def longContent : String := String.mk (List.replicate 120 'a')

/-! ## Fetcher lemmas -/

/-- Each call of the loop body accounts at most `fuel` attempts. -/
theorem fetchAux_attempts_le (events : Nat → FetchEvent) (mr : Nat) :
    ∀ fuel a, (fetchAux events mr fuel a).attempts ≤ fuel := by
  intro fuel
  induction fuel with
  | zero => intro a; simp [fetchAux]
  | succ n ih =>
    intro a
    have h := ih (a + 1)
    cases hev : events a <;> simp only [fetchAux, hev] <;> repeat' split
    all_goals (simp <;> omega)

/-- With fuel remaining, the loop makes at least one attempt. -/
theorem fetchAux_attempts_pos (events : Nat → FetchEvent) (mr : Nat) :
    ∀ fuel a, 1 ≤ fuel → 1 ≤ (fetchAux events mr fuel a).attempts := by
  intro fuel
  induction fuel with
  | zero => intro a h; omega
  | succ n ih =>
    intro a _
    cases hev : events a <;> simp only [fetchAux, hev] <;> repeat' split
    all_goals simp

/-- The backoff sleeps are exactly `2 ^ attempt` for each non-final attempt,
attempts numbered from `a`.  `mr = a + fuel` is the loop invariant relating
fuel to the attempt counter. -/
theorem fetchAux_sleeps (events : Nat → FetchEvent) (mr : Nat) :
    ∀ fuel a, mr = a + fuel →
      (fetchAux events mr fuel a).sleeps
        = (List.range' a ((fetchAux events mr fuel a).attempts - 1)).map
            (fun i => 2 ^ i) := by
  intro fuel
  induction fuel with
  | zero => intro a _; simp [fetchAux]
  | succ n ih =>
    intro a hinv
    have hrec := ih (a + 1) (by omega)
    have hpos := fetchAux_attempts_pos events mr n (a + 1)
    have hretry : a < mr - 1 →
        2 ^ a :: (fetchAux events mr n (a + 1)).sleeps
          = List.map (fun i => 2 ^ i)
              (List.range' a ((fetchAux events mr n (a + 1)).attempts + 1 - 1)) := by
      intro hlt
      have hn : 1 ≤ n := by omega
      obtain ⟨k, hk⟩ : ∃ k, (fetchAux events mr n (a + 1)).attempts = k + 1 :=
        ⟨(fetchAux events mr n (a + 1)).attempts - 1, by have := hpos hn; omega⟩
      simp only [hrec, hk, Nat.add_sub_cancel, List.range'_succ, List.map_cons]
    cases hev : events a <;> simp only [fetchAux, hev] <;> repeat' split
    all_goals first
      | (exact hretry (by omega))
      | simp

/-- When every attempt in range hits a retryable outcome, the loop uses all
its fuel and ends with `None`. -/
theorem fetchAux_exhaust (events : Nat → FetchEvent) (mr : Nat) :
    ∀ fuel a, mr = a + fuel →
      (∀ i, a ≤ i → i < mr → Retryable (events i)) →
      (fetchAux events mr fuel a).result = none
        ∧ (fetchAux events mr fuel a).attempts = fuel := by
  intro fuel
  induction fuel with
  | zero => intro a _ _; simp [fetchAux]
  | succ n ih =>
    intro a hinv hr
    have ha : Retryable (events a) := hr a le_rfl (by omega)
    have hretry : a < mr - 1 →
        (fetchAux events mr n (a + 1)).result = none
          ∧ (fetchAux events mr n (a + 1)).attempts = n := by
      intro hlt
      exact ih (a + 1) (by omega) (fun i h1 h2 => hr i (by omega) h2)
    cases hev : events a <;> rw [hev] at ha <;>
      simp only [fetchAux, hev] <;> repeat' split
    all_goals first
      | (have h12 := hretry (by omega); simp [h12.1, h12.2])
      | (refine ⟨rfl, ?_⟩; simp; omega)
      | (simp [Retryable] at ha <;> omega)

/-- Claim C5: on 429/5xx/timeout/network errors, `fetch_with_retry` makes at most
`max_retries` attempts, sleeping exactly `2 ^ attempt` time units (attempt
counted from 0) between consecutive attempts, and returns the failure value
when attempts are exhausted; a 500 followed by a 200 on the second attempt
returns the body after exactly one sleep of `2 ^ 0 = 1`. -/
theorem claim5_retry_policy (events : Nat → FetchEvent) (mr : Nat) :
    (fetch_with_retry events mr).attempts ≤ mr
  ∧ (fetch_with_retry events mr).sleeps
      = (List.range ((fetch_with_retry events mr).attempts - 1)).map
          (fun attempt => 2 ^ attempt)
  ∧ ((∀ i, i < mr → Retryable (events i)) →
      (fetch_with_retry events mr).result = none
        ∧ (fetch_with_retry events mr).attempts = mr)
  ∧ fetch_with_retry ev500then200 3
      = { result := some "body", attempts := 2, sleeps := [1] } := by
  refine ⟨fetchAux_attempts_le events mr mr 0, ?_, ?_, ?_⟩
  · have h := fetchAux_sleeps events mr mr 0 (by omega)
    simp only [fetch_with_retry, List.range_eq_range']
    exact h
  · intro hr
    exact fetchAux_exhaust events mr mr 0 (by omega) (fun i _ h2 => hr i h2)
  · rfl

/-- Witness for C5: with every attempt timing out and `max_retries = 3`,
the fetcher returns the failure value after exactly 3 attempts. -/
theorem claim5_witness :
    (fetch_with_retry (fun _ => FetchEvent.timeoutExc) 3).result = none
  ∧ (fetch_with_retry (fun _ => FetchEvent.timeoutExc) 3).attempts = 3 :=
  (claim5_retry_policy (fun _ => FetchEvent.timeoutExc) 3).2.2.1
    (fun i _ => by simp [Retryable])

/-- Claim C6: an HTTP 404 on the first attempt terminates `fetch_with_retry`
immediately: exactly one request attempt and no backoff sleep, for every
`max_retries ≥ 1`. -/
theorem claim6_404_no_retry (events : Nat → FetchEvent) (mr : Nat)
    (body : String) (hmr : 1 ≤ mr)
    (h404 : events 0 = FetchEvent.response 404 body) :
    fetch_with_retry events mr
      = { result := none, attempts := 1, sleeps := [] } := by
  obtain ⟨m, rfl⟩ : ∃ m, mr = m + 1 := ⟨mr - 1, by omega⟩
  simp [fetch_with_retry, fetchAux, h404]

/-- Witness for C6 at a concrete event stream and `max_retries = 3`. -/
theorem claim6_witness :
    fetch_with_retry (fun _ => FetchEvent.response 404 "nf") 3
      = { result := none, attempts := 1, sleeps := [] } :=
  claim6_404_no_retry (fun _ => FetchEvent.response 404 "nf") 3 "nf"
    (by omega) rfl

/-- Claim C1 as stated is false: a 404 and an exhausted-retries failure return the
very same value (`None`), so the NotFound and Failure outcomes are not
distinguishable by the caller; moreover the Orchestrator books a page whose
every attempt timed out (never a 404) under the `not_found` counter, not
under `failed_scrapes`. -/
theorem claim1_counterexample :
    (fetch_with_retry (fun _ => FetchEvent.response 404 "nf") 3).result
      = (fetch_with_retry (fun _ => FetchEvent.timeoutExc) 3).result
  ∧ (scrape_release_notes Wtimeout cfg 5 5).stats.not_found = 1
  ∧ (scrape_release_notes Wtimeout cfg 5 5).stats.failed_scrapes = 0 :=
  ⟨rfl, rfl, rfl⟩

/-- Claim C1 amended: `fetch_with_retry` has a two-way outcome — the raw body on
HTTP 200, and the single value `None` on 404 as well as on exhausted
retries; the Orchestrator maps every `None` from the fetcher to one
`not_found` increment and the error string
"Page not found or failed to fetch". -/
theorem claim1_amended_two_way (events : Nat → FetchEvent) (mr : Nat)
    (body : String) (hmr : 1 ≤ mr) :
    (events 0 = FetchEvent.response 200 body →
       (fetch_with_retry events mr).result = some body)
  ∧ (events 0 = FetchEvent.response 404 body →
       (fetch_with_retry events mr).result = none)
  ∧ ((∀ i, i < mr → Retryable (events i)) →
       (fetch_with_retry events mr).result = none)
  ∧ ∀ (W : ExternalWorld) (config : ScraperConfig) (st : RunState) (p : Int),
      (fetch_with_retry (W.http p) config.max_retries).result = none →
      (processPage W config st p).stats.not_found = st.stats.not_found + 1
        ∧ (processPage W config st p).results
            = st.results ++
              [{ page_id := p, url := pyFormat config.base_url (toString p),
                 success := false, title := none, content := none,
                 error := some "Page not found or failed to fetch" }] := by
  obtain ⟨m, rfl⟩ : ∃ m, mr = m + 1 := ⟨mr - 1, by omega⟩
  refine ⟨?_, ?_, ?_, ?_⟩
  · intro h200
    simp [fetch_with_retry, fetchAux, h200]
  · intro h404
    simp [fetch_with_retry, fetchAux, h404]
  · intro hr
    exact (fetchAux_exhaust events (m + 1) (m + 1) 0 (by omega)
      (fun i _ h2 => hr i h2)).1
  · intro W config st p hnone
    simp [processPage, hnone]

/-- Witness for the amended C1 at concrete inputs. -/
theorem claim1_witness :
    (fetch_with_retry (fun _ => FetchEvent.response 404 "nf") 3).result = none :=
  (claim1_amended_two_way (fun _ => FetchEvent.response 404 "nf") 3 "nf"
    (by omega)).2.1 rfl

/-- Claim C7: in the finalized statistics of any run, `success_rate` equals
`successful_scrapes / total_pages_checked` when `total_pages_checked > 0`,
and equals exactly 0 when `total_pages_checked = 0`. -/
theorem claim7_success_rate (W : ExternalWorld) (config : ScraperConfig)
    (start_id end_id : Int) :
    (0 < (scrape_release_notes W config start_id end_id).stats.total_pages_checked →
       (scrape_release_notes W config start_id end_id).stats.to_dict.success_rate
         = ((scrape_release_notes W config start_id end_id).stats.successful_scrapes : ℚ)
             / ((scrape_release_notes W config start_id end_id).stats.total_pages_checked : ℚ))
  ∧ ((scrape_release_notes W config start_id end_id).stats.total_pages_checked = 0 →
       (scrape_release_notes W config start_id end_id).stats.to_dict.success_rate = 0) := by
  constructor
  · intro h
    simp [ScraperStats.to_dict, h]
  · intro h
    simp [ScraperStats.to_dict, h]

/-- Witness for C7: a concrete one-page run with `total_pages_checked = 1`. -/
theorem claim7_witness :
    0 < (scrape_release_notes W404 cfg 5 5).stats.total_pages_checked
  ∧ (scrape_release_notes W404 cfg 5 5).stats.to_dict.success_rate
      = ((scrape_release_notes W404 cfg 5 5).stats.successful_scrapes : ℚ)
          / ((scrape_release_notes W404 cfg 5 5).stats.total_pages_checked : ℚ) :=
  ⟨by decide, (claim7_success_rate W404 cfg 5 5).1 (by decide)⟩

/-- Claim C3 as stated is false: when the readability summary is the empty
string, `extract_main_content` accepts it (the Python guard
`if content and ...` is skipped for a falsy string), returning a non-`None`
value whose trimmed length 0 is below 100. -/
theorem claim3_counterexample :
    extract_main_content (fun _ => some "") "<html></html>" = some ""
  ∧ (pyStripL ("".data)).length < 100 :=
  ⟨rfl, by decide⟩

/-- Claim C3 amended: every accepted non-`None`, non-empty extraction has trimmed
length at least 100, and a non-empty extracted region that trims to fewer
than 100 characters is rejected with `None`; only the empty-string
extraction passes through unchecked (the Orchestrator later rejects it as
falsy). -/
theorem claim3_amended_min_length (summaryOf : String → Option String)
    (html s : String) :
    (extract_main_content summaryOf html = some s → s ≠ "" →
       100 ≤ (pyStripL s.data).length)
  ∧ (summaryOf html = some s → s ≠ "" → (pyStripL s.data).length < 100 →
       extract_main_content summaryOf html = none) := by
  constructor
  · intro hacc hne
    unfold extract_main_content at hacc
    split at hacc
    · exact absurd hacc (by simp)
    · split at hacc
      · exact absurd hacc (by simp)
      · rename_i hcond
        obtain rfl := Option.some.inj hacc
        push_neg at hcond
        have := hcond hne
        omega
  · intro hsum hne hlt
    unfold extract_main_content
    rw [hsum]
    simp only [if_pos (And.intro hne hlt)]

/-- Witness for the amended C3 at a concrete 120-character extraction. -/
theorem claim3_witness : 100 ≤ (pyStripL longContent.data).length :=
  (claim3_amended_min_length (fun _ => some longContent) "<html>" longContent).1
    (by decide) (by decide)

/-! ## Orchestrator loop lemmas -/

/-- Every iteration appends exactly one `ScrapeResult`, carrying the
iteration's page id, that is either a success or carries an error string. -/
theorem processPage_results (W : ExternalWorld) (config : ScraperConfig)
    (st : RunState) (p : Int) :
    ∃ r : ScrapeResult, (processPage W config st p).results = st.results ++ [r]
      ∧ r.page_id = p ∧ (r.success = true ∨ r.error ≠ none) := by
  simp only [processPage]
  split
  · exact ⟨_, rfl, rfl, Or.inr (by simp)⟩
  · split
    · exact ⟨_, rfl, rfl, Or.inr (by simp)⟩
    · split
      · exact ⟨_, rfl, rfl, Or.inr (by simp)⟩
      · split
        · exact ⟨_, rfl, rfl, Or.inr (by simp)⟩
        · split
          · exact ⟨_, rfl, rfl, Or.inr (by simp)⟩
          · exact ⟨_, rfl, rfl, Or.inl rfl⟩

/-- Every iteration increments `total_pages_checked` by one, and the sum of
the three outcome counters by exactly one. -/
theorem processPage_stats (W : ExternalWorld) (config : ScraperConfig)
    (st : RunState) (p : Int) :
    (processPage W config st p).stats.total_pages_checked
        = st.stats.total_pages_checked + 1
  ∧ (processPage W config st p).stats.successful_scrapes
      + (processPage W config st p).stats.failed_scrapes
      + (processPage W config st p).stats.not_found
    = st.stats.successful_scrapes + st.stats.failed_scrapes
      + st.stats.not_found + 1 := by
  simp only [processPage]
  repeat' split
  all_goals exact ⟨by simp, by simp; omega⟩

/-- A politeness-delay sleep happens in an iteration exactly when the
success counter is incremented. -/
theorem processPage_delay (W : ExternalWorld) (config : ScraperConfig)
    (st : RunState) (p : Int)
    (h : st.delaySleeps = st.stats.successful_scrapes) :
    (processPage W config st p).delaySleeps
      = (processPage W config st p).stats.successful_scrapes := by
  simp only [processPage]
  repeat' split
  all_goals simp [h]

/-- An iteration either leaves `sections` unchanged or appends one section
for its page id. -/
theorem processPage_sections (W : ExternalWorld) (config : ScraperConfig)
    (st : RunState) (p : Int) :
    (processPage W config st p).sections = st.sections
  ∨ ∃ txt, (processPage W config st p).sections = st.sections ++ [(p, txt)] := by
  simp only [processPage]
  repeat' split
  all_goals first
    | (exact Or.inl rfl)
    | (exact Or.inr ⟨_, rfl⟩)

/-- Folding the loop appends, in order, one result per page id. -/
theorem foldl_results_page_ids (W : ExternalWorld) (config : ScraperConfig) :
    ∀ (ids : List Int) (st : RunState),
      ((ids.foldl (processPage W config) st).results).map (·.page_id)
        = st.results.map (·.page_id) ++ ids := by
  intro ids
  induction ids with
  | nil => intro st; simp
  | cons p ids ih =>
    intro st
    obtain ⟨r, hr, hpid, _⟩ := processPage_results W config st p
    simp only [List.foldl_cons, ih (processPage W config st p), hr]
    simp [hpid]

/-- Every result the loop accumulates is terminal: a success or a failure
carrying an error string. -/
theorem foldl_results_terminal (W : ExternalWorld) (config : ScraperConfig) :
    ∀ (ids : List Int) (st : RunState),
      (∀ r ∈ st.results, r.success = true ∨ r.error ≠ none) →
      ∀ r ∈ ((ids.foldl (processPage W config) st).results),
        r.success = true ∨ r.error ≠ none := by
  intro ids
  induction ids with
  | nil => intro st h; simpa using h
  | cons p ids ih =>
    intro st h
    refine ih (processPage W config st p) ?_
    obtain ⟨r0, hr0, _, hterm⟩ := processPage_results W config st p
    intro r hr
    rw [hr0] at hr
    rcases List.mem_append.mp hr with hmem | hmem
    · exact h r hmem
    · rw [List.mem_singleton.mp hmem]
      exact hterm

/-- The counter invariant `total = successes + failures + not-found` is
preserved by the loop. -/
theorem foldl_stats_inv (W : ExternalWorld) (config : ScraperConfig) :
    ∀ (ids : List Int) (st : RunState),
      st.stats.total_pages_checked
        = st.stats.successful_scrapes + st.stats.failed_scrapes
          + st.stats.not_found →
      (ids.foldl (processPage W config) st).stats.total_pages_checked
        = (ids.foldl (processPage W config) st).stats.successful_scrapes
          + (ids.foldl (processPage W config) st).stats.failed_scrapes
          + (ids.foldl (processPage W config) st).stats.not_found := by
  intro ids
  induction ids with
  | nil => intro st h; simpa using h
  | cons p ids ih =>
    intro st h
    refine ih (processPage W config st p) ?_
    obtain ⟨h1, h2⟩ := processPage_stats W config st p
    omega

/-- The delay-sleep count tracks the success counter through the loop. -/
theorem foldl_delay_inv (W : ExternalWorld) (config : ScraperConfig) :
    ∀ (ids : List Int) (st : RunState),
      st.delaySleeps = st.stats.successful_scrapes →
      (ids.foldl (processPage W config) st).delaySleeps
        = (ids.foldl (processPage W config) st).stats.successful_scrapes := by
  intro ids
  induction ids with
  | nil => intro st h; simpa using h
  | cons p ids ih =>
    intro st h
    exact ih (processPage W config st p) (processPage_delay W config st p h)

/-- The page ids of the accumulated sections form a sublist of the starting
section ids followed by the processed ids. -/
theorem foldl_sections_sublist (W : ExternalWorld) (config : ScraperConfig) :
    ∀ (ids : List Int) (st : RunState),
      (((ids.foldl (processPage W config) st).sections).map (·.1)).Sublist
        (st.sections.map (·.1) ++ ids) := by
  intro ids
  induction ids with
  | nil => intro st; simp
  | cons p ids ih =>
    intro st
    have h := ih (processPage W config st p)
    rcases processPage_sections W config st p with heq | ⟨txt, heq⟩
    · rw [heq] at h
      refine h.trans ?_
      exact List.Sublist.append_left (List.sublist_cons_self p ids) _
    · rw [heq] at h
      refine h.trans ?_
      simp

/-- The id range of a run is duplicate-free. -/
theorem intRange_nodup (s e : Int) : (intRange s e).Nodup := by
  have hinj : Function.Injective (fun i : Nat => s + (i : Int)) := by
    intro i j hij
    simp only [add_right_inj] at hij
    exact_mod_cast hij
  exact List.Nodup.map hinj (List.nodup_range _)

/-- The id range has `(e + 1 - s).toNat` elements. -/
theorem intRange_length (s e : Int) : (intRange s e).length = (e + 1 - s).toNat := by
  simp [intRange]

/-- Claim C4: over an inclusive range with `start_id ≤ end_id`, the run returns
exactly one terminal `ScrapeResult` per page id, in range order; the list
has length `end_id - start_id + 1`, and every result is a success or
carries an error string. -/
theorem claim4_one_result_per_id (W : ExternalWorld) (config : ScraperConfig)
    (s e : Int) (h : s ≤ e) :
    ((scrape_release_notes W config s e).results.map (·.page_id)
        = intRange s e)
  ∧ (((scrape_release_notes W config s e).results.length : Int) = e - s + 1)
  ∧ ∀ r ∈ (scrape_release_notes W config s e).results,
      r.success = true ∨ r.error ≠ none := by
  have hids : (scrape_release_notes W config s e).results
      = ((intRange s e).foldl (processPage W config) initState).results := rfl
  have h1 := foldl_results_page_ids W config (intRange s e) initState
  simp only [initState, List.map_nil, List.nil_append] at h1
  refine ⟨hids ▸ h1, ?_, ?_⟩
  · have hlen := congrArg List.length (hids ▸ h1)
    rw [List.length_map] at hlen
    rw [hlen, intRange_length]
    omega
  · rw [hids]
    exact foldl_results_terminal W config (intRange s e) initState
      (by intro r hr; simp [initState] at hr)

/-- Witness for C4: the concrete all-404 run over `[5, 6]`. -/
theorem claim4_witness :
    ((scrape_release_notes W404 cfg 5 6).results.map (·.page_id)
        = intRange 5 6)
  ∧ (((scrape_release_notes W404 cfg 5 6).results.length : Int) = 6 - 5 + 1) :=
  ⟨(claim4_one_result_per_id W404 cfg 5 6 (by decide)).1,
   (claim4_one_result_per_id W404 cfg 5 6 (by decide)).2.1⟩

/-- Claim C10: starting from a fresh `ScraperStats`, after each loop iteration —
and at run end — `total_pages_checked` equals
`successful_scrapes + failed_scrapes + not_found`. -/
theorem claim10_counter_invariant (W : ExternalWorld) (config : ScraperConfig)
    (s e : Int) (n : Nat) :
    (((intRange s e).take n).foldl (processPage W config)
          initState).stats.total_pages_checked
      = (((intRange s e).take n).foldl (processPage W config)
            initState).stats.successful_scrapes
        + (((intRange s e).take n).foldl (processPage W config)
              initState).stats.failed_scrapes
        + (((intRange s e).take n).foldl (processPage W config)
              initState).stats.not_found
  ∧ (scrape_release_notes W config s e).stats.total_pages_checked
      = (scrape_release_notes W config s e).stats.successful_scrapes
        + (scrape_release_notes W config s e).stats.failed_scrapes
        + (scrape_release_notes W config s e).stats.not_found := by
  constructor
  · exact foldl_stats_inv W config ((intRange s e).take n) initState
      (by simp [initState])
  · exact foldl_stats_inv W config (intRange s e) initState
      (by simp [initState])

/-- Claim C2 as stated is false: in a one-page run whose fetch returns 404, the
page id is processed (`total_pages_checked = 1`) but no
`time.sleep(config.delay)` is performed — the politeness delay sits on the
success path only and every failure path `continue`s past it. -/
theorem claim2_counterexample :
    (scrape_release_notes W404 cfg 5 5).stats.total_pages_checked = 1
  ∧ (scrape_release_notes W404 cfg 5 5).delaySleeps = 0 :=
  ⟨rfl, rfl⟩

/-- Claim C2 amended: the inter-request delay is performed exactly once per
successfully scraped page id, and not after failure or not-found
outcomes. -/
theorem claim2_amended_delay_on_success (W : ExternalWorld)
    (config : ScraperConfig) (s e : Int) :
    (scrape_release_notes W config s e).delaySleeps
      = (scrape_release_notes W config s e).stats.successful_scrapes :=
  foldl_delay_inv W config (intRange s e) initState (by simp [initState])

/-- Claim C8: the sorted section list of any run is in strictly ascending
page-id order, whatever mix of successes, failures and not-founds the run
produced. -/
theorem claim8_sections_sorted (W : ExternalWorld) (config : ScraperConfig)
    (s e : Int) :
    List.Pairwise (fun a b => a.1 < b.1)
      (scrape_release_notes W config s e).sectionsSorted := by
  have hsorted : (scrape_release_notes W config s e).sectionsSorted
      = (((intRange s e).foldl (processPage W config)
            initState).sections).mergeSort (fun a b => a.1 ≤ b.1) := rfl
  -- page ids of the collected sections are duplicate-free
  have hsub := foldl_sections_sublist W config (intRange s e) initState
  simp only [initState, List.map_nil, List.nil_append] at hsub
  have hnodup : ((((intRange s e).foldl (processPage W config)
      initState).sections).map (·.1)).Nodup :=
    hsub.nodup (intRange_nodup s e)
  -- the sort is a permutation, so ids stay duplicate-free
  have hperm := List.mergeSort_perm
    (((intRange s e).foldl (processPage W config) initState).sections)
    (fun a b => a.1 ≤ b.1)
  have hnodup' : (((scrape_release_notes W config s e).sectionsSorted).map
      (·.1)).Nodup := by
    rw [hsorted]
    exact ((hperm.map (·.1)).nodup_iff).mpr hnodup
  -- the sort output is pairwise non-decreasing on page ids
  have hle : List.Pairwise (fun a b : Int × String => a.1 ≤ b.1)
      (scrape_release_notes W config s e).sectionsSorted := by
    rw [hsorted]
    refine (List.sorted_mergeSort ?_ ?_ _).imp ?_
    · intro a b c hab hbc
      simp only [decide_eq_true_eq] at *
      omega
    · intro a b
      simp only [Bool.or_eq_true, decide_eq_true_eq]
      omega
    · intro a b hab
      simpa using hab
  have hne : List.Pairwise (fun a b : Int × String => a.1 ≠ b.1)
      (scrape_release_notes W config s e).sectionsSorted :=
    List.pairwise_map.mp hnodup'
  exact (hle.and hne).imp (fun h => lt_of_le_of_ne h.1 h.2)

/-! ## Split/join lemmas for the markdown post-processing (C9) -/

/-- `splitOnChar` never returns the empty list of pieces. -/
theorem splitOnChar_ne_nil (c : Char) : ∀ l, splitOnChar c l ≠ []
  | [] => by simp [splitOnChar]
  | x :: xs => by
    simp only [splitOnChar]
    split
    · simp
    · split <;> simp

/-- No piece of a split contains the separator. -/
theorem splitOnChar_no_sep (c : Char) : ∀ l, ∀ p ∈ splitOnChar c l, c ∉ p := by
  intro l
  induction l with
  | nil =>
    intro p hp
    simp only [splitOnChar, List.mem_singleton] at hp
    subst hp
    simp
  | cons x xs ih =>
    intro p hp
    simp only [splitOnChar] at hp
    by_cases hx : x = c
    · rw [if_pos hx] at hp
      rcases List.mem_cons.mp hp with h | h
      · subst h; simp
      · exact ih p h
    · rw [if_neg hx] at hp
      split at hp
      · rename_i heq
        exact absurd heq (splitOnChar_ne_nil c xs)
      · rename_i h t heq
        rcases List.mem_cons.mp hp with hh | hh
        · subst hh
          intro hmem
          rcases List.mem_cons.mp hmem with h1 | h1
          · exact hx h1.symm
          · exact ih h (heq ▸ List.mem_cons_self h t) h1
        · exact ih p (heq ▸ List.mem_cons_of_mem h hh)

/-- A separator-free list splits into itself as the single piece. -/
theorem splitOnChar_eq_single (c : Char) : ∀ l, c ∉ l → splitOnChar c l = [l]
  | [], _ => rfl
  | x :: xs, h => by
    have hx : ¬x = c := by
      intro he
      subst he
      exact h (List.mem_cons_self x xs)
    have hrec := splitOnChar_eq_single c xs
      (fun hm => h (List.mem_cons_of_mem x hm))
    simp [splitOnChar, if_neg hx, hrec]

/-- Splitting at the first separator after a separator-free piece. -/
theorem splitOnChar_append (c : Char) : ∀ l rest, c ∉ l →
    splitOnChar c (l ++ c :: rest) = l :: splitOnChar c rest
  | [], rest, _ => by simp [splitOnChar]
  | x :: xs, rest, h => by
    have hx : ¬x = c := by
      intro he
      subst he
      exact h (List.mem_cons_self x xs)
    have hrec := splitOnChar_append c xs rest
      (fun hm => h (List.mem_cons_of_mem x hm))
    have hne := splitOnChar_ne_nil c rest
    simp only [List.cons_append, splitOnChar, if_neg hx, List.append_eq, hrec]

/-- Splitting undoes joining when no piece contains the separator. -/
theorem splitOnChar_joinSep (c : Char) : ∀ ls, ls ≠ [] →
    (∀ p ∈ ls, c ∉ p) → splitOnChar c (joinSep [c] ls) = ls
  | [], h, _ => absurd rfl h
  | [l], _, hp => by
    simp only [joinSep]
    exact splitOnChar_eq_single c l (hp l (List.mem_singleton_self l))
  | l :: l2 :: ls, _, hp => by
    have hrec := splitOnChar_joinSep c (l2 :: ls) (by simp)
      (fun p hm => hp p (List.mem_cons_of_mem l hm))
    simp only [joinSep]
    rw [List.append_assoc, List.singleton_append,
      splitOnChar_append c l _ (hp l (List.mem_cons_self l _)), hrec]

/-- A chain relation holds along a list when it follows from a pointwise
property of the left element. -/
theorem chain'_of_forall {α : Type} {P : α → Prop} {R : α → α → Prop}
    (hR : ∀ a b, P a → R a b) : ∀ l : List α, (∀ x ∈ l, P x) → List.Chain' R l
  | [], _ => List.chain'_nil
  | [_], _ => by simp
  | a :: b :: t, h => by
    rw [List.chain'_cons]
    exact ⟨hR a b (h a (List.mem_cons_self a _)),
      chain'_of_forall hR (b :: t) (fun x hx => h x (List.mem_cons_of_mem a hx))⟩

/-- The head of a joined nonempty first piece is that piece's head. -/
theorem joinSep_head (sep : List Char) (l : List Char) (ls : List (List Char))
    (hl : l ≠ []) : (joinSep sep (l :: ls)).head? = l.head? := by
  cases ls with
  | nil => simp [joinSep]
  | cons l2 ls =>
    simp only [joinSep]
    cases l with
    | nil => exact absurd rfl hl
    | cons x xs => simp

/-- Joining nonempty newline-free pieces with `'\n'` never produces two
adjacent newline characters. -/
theorem noNN_joinSep : ∀ ls : List (List Char),
    (∀ p ∈ ls, p ≠ [] ∧ '\n' ∉ p) →
    List.Chain' (fun a b => ¬(a = '\n' ∧ b = '\n')) (joinSep ['\n'] ls)
  | [], _ => List.chain'_nil
  | [l], h =>
    chain'_of_forall (P := fun a => a ≠ '\n')
      (R := fun a b => ¬(a = '\n' ∧ b = '\n'))
      (fun _ _ ha hab => ha hab.1) l
      (fun x hx hxeq => (h l (List.mem_singleton_self l)).2 (hxeq ▸ hx))
  | l :: l2 :: ls, h => by
    have h1 : '\n' ∉ l := (h l (List.mem_cons_self l _)).2
    have hl2 : l2 ≠ [] :=
      (h l2 (List.mem_cons_of_mem l (List.mem_cons_self l2 ls))).1
    have hrec := noNN_joinSep (l2 :: ls)
      (fun p hm => h p (List.mem_cons_of_mem l hm))
    simp only [joinSep]
    rw [List.append_assoc, List.singleton_append, List.chain'_append]
    refine ⟨chain'_of_forall (P := fun a => a ≠ '\n')
        (R := fun a b => ¬(a = '\n' ∧ b = '\n'))
        (fun _ _ ha hab => ha hab.1) l
        (fun x hx hxeq => h1 (hxeq ▸ hx)), ?_, ?_⟩
    · rw [List.chain'_cons']
      refine ⟨?_, hrec⟩
      intro y hy
      rw [joinSep_head ['\n'] l2 ls hl2] at hy
      intro hcon
      exact (h l2 (List.mem_cons_of_mem l (List.mem_cons_self l2 ls))).2
        (hcon.2 ▸ List.mem_of_mem_head? hy)
    · intro x hx y hy
      intro hcon
      exact h1 (hcon.1 ▸ List.mem_of_mem_getLast? hx)

/-- A list without two adjacent newlines is left whole by the
`"\n\n"`-split. -/
theorem splitNN_of_chain : ∀ m : List Char,
    List.Chain' (fun a b => ¬(a = '\n' ∧ b = '\n')) m → splitNN m = [m]
  | [], _ => rfl
  | [_], _ => rfl
  | x :: y :: xs, h => by
    have hxy : ¬(x = '\n' ∧ y = '\n') := (List.chain'_cons.mp h).1
    have hrec := splitNN_of_chain (y :: xs) (List.chain'_cons.mp h).2
    simp [splitNN, if_neg hxy, hrec]

/-- Characters surviving a Python strip were in the original list. -/
theorem pyStripL_subset {x : Char} {l : List Char} (h : x ∈ pyStripL l) :
    x ∈ l := by
  unfold pyStripL at h
  rw [List.mem_reverse] at h
  have h1 := (List.dropWhile_sublist _).subset h
  rw [List.mem_reverse] at h1
  exact (List.dropWhile_sublist _).subset h1

/-- Adjacent-empty freedom transfers from the `Chain'` form to the
executable check. -/
theorem twoConsecutiveBlank_of_chain : ∀ l : List (List Char),
    List.Chain' (fun a b => ¬(a = [] ∧ b = [])) l →
    twoConsecutiveBlank l = false
  | [], _ => rfl
  | [_], _ => rfl
  | a :: b :: t, h => by
    obtain ⟨h1, h2⟩ := List.chain'_cons.mp h
    have hrec := twoConsecutiveBlank_of_chain (b :: t) h2
    simp only [twoConsecutiveBlank, hrec, Bool.or_false,
      Bool.and_eq_false_iff, decide_eq_false_iff_not]
    by_cases ha : a = []
    · exact Or.inr (fun hb => h1 ⟨ha, hb⟩)
    · exact Or.inl ha

/-- The whole post-processing pipeline of `html_to_markdown` leaves no two
adjacent blank lines when fed nonempty newline-free pieces. -/
theorem postprocessed_no_blank (ls : List (List Char))
    (hp : ∀ p ∈ ls, p ≠ [] ∧ '\n' ∉ p) :
    noConsecBlankLines ⟨joinSep ['\n', '\n']
      ((splitNN (joinSep ['\n'] ls)).filter (· ≠ []))⟩ := by
  have hchain := noNN_joinSep ls hp
  have hsplit := splitNN_of_chain (joinSep ['\n'] ls) hchain
  rw [hsplit]
  by_cases hm : joinSep ['\n'] ls = []
  · rw [hm]
    decide
  · have hfil : ([joinSep ['\n'] ls].filter (· ≠ [])) = [joinSep ['\n'] ls] := by
      simp [hm]
    rw [hfil]
    show noConsecBlankLines ⟨joinSep ['\n'] ls⟩
    have hlsne : ls ≠ [] := by
      intro h0
      rw [h0] at hm
      exact hm rfl
    unfold noConsecBlankLines
    have hdata : (⟨joinSep ['\n'] ls⟩ : String).data = joinSep ['\n'] ls := rfl
    rw [hdata, splitOnChar_joinSep '\n' ls hlsne (fun p hpm => (hp p hpm).2)]
    exact twoConsecutiveBlank_of_chain ls
      (chain'_of_forall (P := fun p => p ≠ [])
        (R := fun a b => ¬(a = [] ∧ b = []))
        (fun _ _ ha hab => ha hab.1) ls (fun p hpm => (hp p hpm).1))

/-- Claim C9 as stated is false: on an internal conversion error,
`html_to_markdown` returns the inline error string without any
post-processing, so an exception message containing a run of blank lines
flows straight into the output. -/
theorem claim9_counterexample :
    ¬ noConsecBlankLines
        (html_to_markdown (fun _ => Except.error "boom\n\n\nbad") "<p>x</p>") := by
  decide

/-- Claim C9 amended: whenever the html2text conversion itself succeeds, the
post-processed output of `html_to_markdown` contains no two consecutive
blank lines (indeed no blank line at all); only the internal-error path
returns a string that may contain blank-line runs. -/
theorem claim9_amended_no_blank_runs (convertOf : String → Except String String)
    (html md : String) (hok : convertOf html = Except.ok md) :
    noConsecBlankLines (html_to_markdown convertOf html) := by
  have hrw : html_to_markdown convertOf html
      = ⟨joinSep ['\n', '\n'] ((splitNN (joinSep ['\n']
          (((splitOnChar '\n' md.data).filter
              (fun line => pyStripL line ≠ [])).map pyStripL))).filter
            (· ≠ []))⟩ := by
    unfold html_to_markdown
    rw [hok]
  rw [hrw]
  refine postprocessed_no_blank _ ?_
  intro p hpmem
  obtain ⟨a, ha, rfl⟩ := List.mem_map.mp hpmem
  have hfa := List.mem_filter.mp ha
  refine ⟨of_decide_eq_true hfa.2, ?_⟩
  intro hmem
  exact splitOnChar_no_sep '\n' md.data a hfa.1 (pyStripL_subset hmem)

/-- Witness for the amended C9: a successful conversion whose raw output
contains a run of blank lines. -/
theorem claim9_witness :
    noConsecBlankLines
      (html_to_markdown (fun _ => Except.ok "a\n\n\n\nb") "<p>") :=
  claim9_amended_no_blank_runs (fun _ => Except.ok "a\n\n\n\nb") "<p>"
    "a\n\n\n\nb" rfl

end Scraper
